import Mathlib

/-!
Verification development for the TCG 2584 (Fibonacci 2048) framework:
a shallow embedding of board.h and agent.h, with theorems about the
sliding mechanics, the n-tuple network indexing, the value estimation
and the TD learning loop. Machine unsigned 32-bit cells are modelled as
Nat; the C cast from uint32 to int is modelled explicitly with
wrap-around at 2^32; float arithmetic is modelled by exact rationals.
-/

namespace TCG2584

/-- One row of the 4x4 board: four uint32 cells, modelled as Nat. -/
structure Row4 where
  c0 : Nat
  c1 : Nat
  c2 : Nat
  c3 : Nat
deriving DecidableEq

/-- The 4x4 grid of cells, row major, mirroring board::tile.
The opaque attr field is never consulted by the modelled code and is omitted. -/
structure Grid4 where
  r0 : Row4
  r1 : Row4
  r2 : Row4
  r3 : Row4
deriving DecidableEq

/-- board::operator()(i): linear access tile[i / 4][i % 4] for i in 0..15. -/
def cellAt (g : Grid4) (i : Nat) : Nat :=
  match i with
  | 0 => g.r0.c0 | 1 => g.r0.c1 | 2 => g.r0.c2 | 3 => g.r0.c3
  | 4 => g.r1.c0 | 5 => g.r1.c1 | 6 => g.r1.c2 | 7 => g.r1.c3
  | 8 => g.r2.c0 | 9 => g.r2.c1 | 10 => g.r2.c2 | 11 => g.r2.c3
  | 12 => g.r3.c0 | 13 => g.r3.c1 | 14 => g.r3.c2 | 15 => g.r3.c3
  | _ => 0

/-- The all-zero board, as produced by the default board constructor. -/
def zeroGrid : Grid4 := ⟨⟨0,0,0,0⟩, ⟨0,0,0,0⟩, ⟨0,0,0,0⟩, ⟨0,0,0,0⟩⟩

/-- The 33-entry Fibonacci table from board::fibonacci. -/
def fibList : List Int :=
  [0, 1, 2, 3, 5, 8, 13, 21, 34, 55, 89, 144, 233,
   377, 610, 987, 1597, 2584, 4181, 6765, 10946, 17711, 28657,
   46368, 75025, 121393, 196418, 317811, 514229, 832040, 1346269,
   2178309, 3524578]

/-- board::fibonacci(i): table lookup; indices past the table fall back to 0
(the C array read is out of bounds there; all modelled uses stay in range). -/
def fibonacci (i : Nat) : Int := fibList.getD i 0

/-- board::transpose. -/
def transpose (g : Grid4) : Grid4 :=
  ⟨⟨g.r0.c0, g.r1.c0, g.r2.c0, g.r3.c0⟩,
   ⟨g.r0.c1, g.r1.c1, g.r2.c1, g.r3.c1⟩,
   ⟨g.r0.c2, g.r1.c2, g.r2.c2, g.r3.c2⟩,
   ⟨g.r0.c3, g.r1.c3, g.r2.c3, g.r3.c3⟩⟩

/-- board::reflect_horizontal: swap columns 0,3 and 1,2 in every row. -/
def reflect_horizontal (g : Grid4) : Grid4 :=
  ⟨⟨g.r0.c3, g.r0.c2, g.r0.c1, g.r0.c0⟩,
   ⟨g.r1.c3, g.r1.c2, g.r1.c1, g.r1.c0⟩,
   ⟨g.r2.c3, g.r2.c2, g.r2.c1, g.r2.c0⟩,
   ⟨g.r3.c3, g.r3.c2, g.r3.c1, g.r3.c0⟩⟩

/-- board::reflect_vertical: swap rows 0,3 and 1,2. -/
def reflect_vertical (g : Grid4) : Grid4 := ⟨g.r3, g.r2, g.r1, g.r0⟩

/-- board::rotate_right: transpose then reflect_horizontal (clockwise). -/
def rotate_right (g : Grid4) : Grid4 := reflect_horizontal (transpose g)

/-- board::rotate_left: transpose then reflect_vertical (counterclockwise). -/
def rotate_left (g : Grid4) : Grid4 := reflect_vertical (transpose g)

/-- One step of the slide_left row scan of board::slide_left.
State: (cells written so far, hold, score); t is the cell being read. -/
def slideRowStep (st : List Nat × Nat × Int) (t : Nat) : List Nat × Nat × Int :=
  if t = 0 then st
  else if st.2.1 ≠ 0 then
    if ((t : Int) - (st.2.1 : Int)).natAbs = 1 ∨ (t = 1 ∧ st.2.1 = 1) then
      (st.1 ++ [max t st.2.1 + 1], 0, st.2.2 + fibonacci (max t st.2.1 + 1))
    else (st.1 ++ [st.2.1], t, st.2.2)
  else (st.1, t, st.2.2)

/-- The per-row effect of board::slide_left: the slid row and its reward.
Cells cleared and rewritten left to right; a trailing hold is flushed;
positions never written stay 0. -/
def slide_left_row (r : Row4) : Row4 × Int :=
  let st := [r.c0, r.c1, r.c2, r.c3].foldl slideRowStep ([], 0, 0)
  let out := if st.2.1 ≠ 0 then st.1 ++ [st.2.1] else st.1
  (⟨out.getD 0 0, out.getD 1 0, out.getD 2 0, out.getD 3 0⟩, st.2.2)

/-- board::slide_left: slide every row, sum the rewards, and return -1
instead of the score when the grid is unchanged. The grid is left in the
slid state either way. -/
def slide_left (g : Grid4) : Grid4 × Int :=
  let p0 := slide_left_row g.r0
  let p1 := slide_left_row g.r1
  let p2 := slide_left_row g.r2
  let p3 := slide_left_row g.r3
  let g2 : Grid4 := ⟨p0.1, p1.1, p2.1, p3.1⟩
  (g2, if g2 = g then -1 else 0 + p0.2 + p1.2 + p2.2 + p3.2)

/-- board::slide_right: reflect, slide left, reflect back. -/
def slide_right (g : Grid4) : Grid4 × Int :=
  let p := slide_left (reflect_horizontal g)
  (reflect_horizontal p.1, p.2)

/-- board::slide_up: rotate right, slide right, rotate left. -/
def slide_up (g : Grid4) : Grid4 × Int :=
  let p := slide_right (rotate_right g)
  (rotate_left p.1, p.2)

/-- board::slide_down: rotate right, slide left, rotate left. -/
def slide_down (g : Grid4) : Grid4 × Int :=
  let p := slide_left (rotate_right g)
  (rotate_left p.1, p.2)

/-- board::slide: dispatch on the low two bits of the opcode. -/
def slide (opcode : Nat) (g : Grid4) : Grid4 × Int :=
  match opcode % 4 with
  | 0 => slide_up g
  | 1 => slide_right g
  | 2 => slide_down g
  | _ => slide_left g

/-- One comparison step of board::monotonic: state is (length, max_length);
the cells are compared as ints. -/
def runStep (x y dir : Int) (st : Nat × Nat) : Nat × Nat :=
  if x - y = dir then
    (st.1 + 1, if st.1 + 1 > st.2 then st.1 + 1 else st.2)
  else (1, st.2)

/-- The row scan of board::monotonic over one row and one direction:
length starts at 1; returns the updated max_length. -/
def rowPass (a b c d : Nat) (dir : Int) (m : Nat) : Nat :=
  (runStep (c : Int) (d : Int) dir
    (runStep (b : Int) (c : Int) dir
      (runStep (a : Int) (b : Int) dir (1, m)))).2

/-- The column scan of board::monotonic over one column and one direction:
length starts at 0 (as in the source); returns the updated max_length. -/
def colPass (a b c d : Nat) (dir : Int) (m : Nat) : Nat :=
  (runStep (c : Int) (d : Int) dir
    (runStep (b : Int) (c : Int) dir
      (runStep (a : Int) (b : Int) dir (0, m)))).2

/-- board::monotonic: thread max_length through the eight row passes and
then the eight column passes. -/
def monotonic (g : Grid4) : Nat :=
  let m := 0
  let m := rowPass g.r0.c0 g.r0.c1 g.r0.c2 g.r0.c3 1 m
  let m := rowPass g.r0.c0 g.r0.c1 g.r0.c2 g.r0.c3 (-1) m
  let m := rowPass g.r1.c0 g.r1.c1 g.r1.c2 g.r1.c3 1 m
  let m := rowPass g.r1.c0 g.r1.c1 g.r1.c2 g.r1.c3 (-1) m
  let m := rowPass g.r2.c0 g.r2.c1 g.r2.c2 g.r2.c3 1 m
  let m := rowPass g.r2.c0 g.r2.c1 g.r2.c2 g.r2.c3 (-1) m
  let m := rowPass g.r3.c0 g.r3.c1 g.r3.c2 g.r3.c3 1 m
  let m := rowPass g.r3.c0 g.r3.c1 g.r3.c2 g.r3.c3 (-1) m
  let m := colPass g.r0.c0 g.r1.c0 g.r2.c0 g.r3.c0 1 m
  let m := colPass g.r0.c0 g.r1.c0 g.r2.c0 g.r3.c0 (-1) m
  let m := colPass g.r0.c1 g.r1.c1 g.r2.c1 g.r3.c1 1 m
  let m := colPass g.r0.c1 g.r1.c1 g.r2.c1 g.r3.c1 (-1) m
  let m := colPass g.r0.c2 g.r1.c2 g.r2.c2 g.r3.c2 1 m
  let m := colPass g.r0.c2 g.r1.c2 g.r2.c2 g.r3.c2 (-1) m
  let m := colPass g.r0.c3 g.r1.c3 g.r2.c3 g.r3.c3 1 m
  let m := colPass g.r0.c3 g.r1.c3 g.r2.c3 g.r3.c3 (-1) m
  m

/-! The player (agent.h): weight tables, feature indexing, value
estimation and the TD update loop. The bank of four weight tables is
modelled as one total function from (table number, index) to an exact
rational standing for the float entry; entries not yet touched are 0,
matching the zero initialisation of init_weights. -/

/-- The weight bank: table number 0..3 and a signed index (extract_index
returns an int) to the stored value. -/
def Net : Type := Fin 4 → Int → ℚ

/-- The all-zero bank produced by init_weights. -/
def zeroNet : Net := fun _ _ => 0

/-- The compound assignment net[k][i] += d. -/
def updTable (n : Net) (k : Fin 4) (i : Int) (d : ℚ) : Net :=
  fun k2 i2 => if k2 = k ∧ i2 = i then n k2 i2 + d else n k2 i2

/-- MAX_INDEX = 24 from the player class. -/
def MAX_INDEX : Int := 24

/-- The C cast from uint32 to int: values below 2^31 are unchanged,
larger ones wrap to negatives (two-complement behaviour of the cast). -/
def u32ToInt (v : Nat) : Int :=
  if v % 2 ^ 32 < 2 ^ 31 then ((v % 2 ^ 32 : Nat) : Int)
  else ((v % 2 ^ 32 : Nat) : Int) - 2 ^ 32

/-- std::min((int)after(p), MAX_INDEX - 1), the clamp inside extract_index. -/
def clampCell (v : Nat) : Int := min (u32ToInt v) (MAX_INDEX - 1)

/-- player::extract_index, 4-cell overload: mixed-radix index of four
clamped cells. -/
def extract_index4 (g : Grid4) (a b c d : Nat) : Int :=
  MAX_INDEX * MAX_INDEX * MAX_INDEX * clampCell (cellAt g a) +
  MAX_INDEX * MAX_INDEX * clampCell (cellAt g b) +
  MAX_INDEX * clampCell (cellAt g c) +
  clampCell (cellAt g d)

/-- player::extract_index, 6-cell overload. -/
def extract_index6 (g : Grid4) (a b c d e f : Nat) : Int :=
  MAX_INDEX * MAX_INDEX * MAX_INDEX * MAX_INDEX * MAX_INDEX * clampCell (cellAt g a) +
  MAX_INDEX * MAX_INDEX * MAX_INDEX * MAX_INDEX * clampCell (cellAt g b) +
  MAX_INDEX * MAX_INDEX * MAX_INDEX * clampCell (cellAt g c) +
  MAX_INDEX * MAX_INDEX * clampCell (cellAt g d) +
  MAX_INDEX * clampCell (cellAt g e) +
  clampCell (cellAt g f)

/-- The four table reads done for one orientation of the working board,
summed: net[0] and net[1] on the 6-cell features, net[2] and net[3] on
the 4-cell column features. -/
def orientSum (net : Net) (g : Grid4) : ℚ :=
  net 0 (extract_index6 g 0 1 4 5 8 9) +
  net 1 (extract_index6 g 1 2 5 6 9 10) +
  net 2 (extract_index4 g 2 6 10 14) +
  net 3 (extract_index4 g 3 7 11 15)

/-- player::estimate_value: the working copy tmp starts at the input,
is rotated before the reads of orientations 1..3 and rotated back after
each, exactly as the source loop does; the four per-orientation sums
accumulate into value. -/
def estimate_value (net : Net) (after : Grid4) : ℚ :=
  0 + orientSum net after
    + orientSum net (rotate_left (rotate_left after))
    + orientSum net
        (rotate_left (rotate_right (rotate_right (rotate_left (rotate_left after)))))
    + orientSum net
        (rotate_right (rotate_right (rotate_left
          (rotate_right (rotate_right (rotate_left (rotate_left after)))))))

/-- The four table writes done for one orientation inside adjust_value. -/
def adjOrient (net : Net) (g : Grid4) (d : ℚ) : Net :=
  updTable
    (updTable
      (updTable
        (updTable net 0 (extract_index6 g 0 1 4 5 8 9) d)
        1 (extract_index6 g 1 2 5 6 9 10) d)
      2 (extract_index4 g 2 6 10 14) d)
    3 (extract_index4 g 3 7 11 15) d

/-- player::adjust_value with the learning rate as explicit argument:
computes adjust = alpha * (target - estimate_value(after)) once, then adds
it to the four entries of each of the four orientations, with tmp rotated
and restored as in the source. The returned grid is the final state of
the working copy tmp after the closing rotate_left of orientation 3. -/
def adjust_value (alpha : ℚ) (net : Net) (after : Grid4) (target : ℚ) : Net × Grid4 :=
  let d := alpha * (target - estimate_value net after)
  let t1 := rotate_left (rotate_left after)
  let t2 := rotate_left (rotate_right (rotate_right t1))
  let t3 := rotate_right (rotate_right t2)
  (adjOrient (adjOrient (adjOrient (adjOrient net after d) t1 d) t2 d) t3 d,
   rotate_left t3)

/-- The 16 (table, index) slots read by estimate_value on a board, in
read order: four orientations (identity, 180 degrees, 90 CCW, 90 CW)
times four features. -/
def slotsOf (g : Grid4) : List (Fin 4 × Int) :=
  [(0, extract_index6 g 0 1 4 5 8 9),
   (1, extract_index6 g 1 2 5 6 9 10),
   (2, extract_index4 g 2 6 10 14),
   (3, extract_index4 g 3 7 11 15)]

/-- All slots touched by one estimate_value or adjust_value call. -/
def touchedSlots (g : Grid4) : List (Fin 4 × Int) :=
  slotsOf g ++ slotsOf (rotate_left (rotate_left g)) ++
  slotsOf (rotate_left g) ++ slotsOf (rotate_right g)

/-- Number of occurrences of a slot in a slot list. -/
def countSlot : List (Fin 4 × Int) → Fin 4 × Int → Nat
  | [], _ => 0
  | s :: l, x => (if s = x then 1 else 0) + countSlot l x

/-- A trajectory step as pushed by take_action: (reward, after-state). -/
def defaultStep : Int × Grid4 := (0, zeroGrid)

/-- The backward loop of close_episode: fuel n runs indices n-1 down
to 0; at index i the target is history[i].reward plus the estimate of
history[i+1].after on the current weights, then adjust_value runs on
history[i].after. -/
def td_loop (alpha : ℚ) (hist : List (Int × Grid4)) : Nat → Net → Net
  | 0, net => net
  | i + 1, net =>
    let target : ℚ :=
      (((hist.getD i defaultStep).1 : Int) : ℚ) +
        estimate_value net (hist.getD (i + 1) defaultStep).2
    td_loop alpha hist i
      (adjust_value alpha net (hist.getD i defaultStep).2 target).1

/-- player::close_episode: nothing on an empty trajectory or zero alpha;
otherwise anchor the last after-state at target 0 and run the backward
loop from index n-2 down to 0. -/
def close_episode (alpha : ℚ) (net : Net) (hist : List (Int × Grid4)) : Net :=
  if hist = [] then net
  else if alpha = 0 then net
  else
    let net0 :=
      (adjust_value alpha net (hist.getD (hist.length - 1) defaultStep).2 0).1
    td_loop alpha hist (hist.length - 1) net0

/-- std::numeric_limits of float, max(): (2^24 - 1) * 2^104, exactly. -/
def FLT_MAX : ℚ := (2 ^ 24 - 1) * 2 ^ 104

/-- Loop state of take_action: (best_op, best_reward, best_value,
best_after), initial values as in the source; best_after starts as a
default-constructed board. -/
def taInit : Int × Int × ℚ × Grid4 := (-1, -1, -FLT_MAX, zeroGrid)

/-- One iteration of the take_action loop for operation op: skip when
the slide is illegal, otherwise take the candidate iff
value + reward >= best_value + best_reward. -/
def taStep (net : Net) (before : Grid4) (st : Int × Int × ℚ × Grid4)
    (op : Nat) : Int × Int × ℚ × Grid4 :=
  if (slide op before).2 = -1 then st
  else
    if st.2.2.1 + (st.2.1 : ℚ) ≤
        estimate_value net (slide op before).1 + ((slide op before).2 : ℚ) then
      ((op : Int), (slide op before).2, estimate_value net (slide op before).1,
       (slide op before).1)
    else st

/-- player::take_action loop over the operations 0,1,2,3. -/
def take_action_state (net : Net) (before : Grid4) : Int × Int × ℚ × Grid4 :=
  taStep net before
    (taStep net before (taStep net before (taStep net before taInit 0) 1) 2) 3

/-- The trajectory push of take_action: history gets (best_reward,
best_after) iff best_op is not -1. -/
def take_action_hist (net : Net) (before : Grid4) : Option (Int × Grid4) :=
  let st := take_action_state net before
  if st.1 = -1 then none else some (st.2.1, st.2.2.2)

/-- Modelled from the spec: action.h is not under src, and the spec says
take_action emits Slide(best_op) when a legal operation exists and
otherwise a null action signifying no move; the action is modelled as
an optional opcode, none being the null action. -/
def take_action_act (net : Net) (before : Grid4) : Option Nat :=
  let st := take_action_state net before
  if st.1 = -1 then none else some st.1.toNat

/-- First example after-state board (cells in the valid domain, all 16
touched slots distinct, as decided below). -/
def s0ex : Grid4 := ⟨⟨1,2,3,4⟩, ⟨5,6,7,8⟩, ⟨9,10,11,12⟩, ⟨13,14,15,16⟩⟩

/-- Second example after-state board. -/
def s1ex : Grid4 := ⟨⟨2,3,4,5⟩, ⟨6,7,8,9⟩, ⟨10,11,12,13⟩, ⟨14,15,16,17⟩⟩

/-- Two-step trajectory with distinct step rewards 2 and 5, exposing
which reward index the backward update uses. -/
def histC1 : List (Int × Grid4) := [(2, s0ex), (5, s1ex)]

/-- The trajectory of the learning scenario of the spec: rewards 0 and 5. -/
def histC2 : List (Int × Grid4) := [(0, s0ex), (5, s1ex)]

/-- The alternating board on which no slide direction is legal. -/
def altBoard : Grid4 := ⟨⟨1,3,1,3⟩, ⟨3,1,3,1⟩, ⟨1,3,1,3⟩, ⟨3,1,3,1⟩⟩

/-- A board with one corrupt cell: 2^31 casts to a negative int. -/
def badBoard : Grid4 := ⟨⟨2 ^ 31, 0, 0, 0⟩, ⟨0,0,0,0⟩, ⟨0,0,0,0⟩, ⟨0,0,0,0⟩⟩

/-! Dihedral identities used to normalise the rotate and restore
sequences of the traversal loops. All hold by definitional unfolding. -/

lemma rot_ll_rr (g : Grid4) :
    rotate_right (rotate_right (rotate_left (rotate_left g))) = g := rfl

lemma rot_rl (g : Grid4) : rotate_right (rotate_left g) = g := rfl

lemma rot_lr (g : Grid4) : rotate_left (rotate_right g) = g := rfl

lemma rot_l4 (g : Grid4) :
    rotate_left (rotate_left (rotate_left (rotate_left g))) = g := rfl

lemma rot_l3 (g : Grid4) :
    rotate_left (rotate_left (rotate_left g)) = rotate_right g := rfl

lemma rot_rrl (g : Grid4) :
    rotate_right (rotate_right (rotate_left g)) = rotate_right g := rfl

lemma rot_rll (g : Grid4) :
    rotate_right (rotate_left (rotate_left g)) = rotate_left g := rfl

lemma reflect_horizontal_invol (g : Grid4) :
    reflect_horizontal (reflect_horizontal g) = g := rfl

/-- Transfer of an equation along a pair of mutually inverse maps. -/
lemma inv_eq_iff (fw bw : Grid4 → Grid4) (hfb : ∀ x, fw (bw x) = x)
    (hbf : ∀ x, bw (fw x) = x) (x b : Grid4) : x = bw b ↔ fw x = b := by
  constructor
  · intro e; rw [e, hfb]
  · intro e; rw [← e, hbf]

/-! Nonnegativity of slide rewards. -/

lemma fib_nonneg (i : Nat) : 0 ≤ fibonacci i := by
  unfold fibonacci
  by_cases h : i < fibList.length
  · rw [List.getD_eq_getElem fibList 0 h]
    have hall : ∀ x ∈ fibList, 0 ≤ x := by decide
    exact hall _ (List.getElem_mem h)
  · rw [List.getD_eq_default]
    omega

lemma slideRowStep_score_le (st : List Nat × Nat × Int) (t : Nat) :
    st.2.2 ≤ (slideRowStep st t).2.2 := by
  unfold slideRowStep
  split_ifs with h1 h2 h3
  · exact le_refl _
  · exact le_add_of_nonneg_right (fib_nonneg _)
  · exact le_refl _
  · exact le_refl _

lemma foldl_score_le (l : List Nat) (st : List Nat × Nat × Int) :
    st.2.2 ≤ (l.foldl slideRowStep st).2.2 := by
  induction l generalizing st with
  | nil => exact le_refl _
  | cons t l2 ih => exact le_trans (slideRowStep_score_le st t) (ih _)

lemma slide_left_row_score_nonneg (r : Row4) : 0 ≤ (slide_left_row r).2 :=
  foldl_score_le [r.c0, r.c1, r.c2, r.c3] ([], 0, 0)

/-- The components of slide_left, spelled out. -/
lemma slide_left_eq (g : Grid4) :
    slide_left g =
      (⟨(slide_left_row g.r0).1, (slide_left_row g.r1).1,
        (slide_left_row g.r2).1, (slide_left_row g.r3).1⟩,
       if (⟨(slide_left_row g.r0).1, (slide_left_row g.r1).1,
            (slide_left_row g.r2).1, (slide_left_row g.r3).1⟩ : Grid4) = g then -1
       else 0 + (slide_left_row g.r0).2 + (slide_left_row g.r1).2 +
            (slide_left_row g.r2).2 + (slide_left_row g.r3).2) := rfl

lemma slide_left_spec (g : Grid4) :
    ((slide_left g).2 = -1 ↔ (slide_left g).1 = g) ∧
    ((slide_left g).2 ≠ -1 → 0 ≤ (slide_left g).2) := by
  have h0 := slide_left_row_score_nonneg g.r0
  have h1 := slide_left_row_score_nonneg g.r1
  have h2 := slide_left_row_score_nonneg g.r2
  have h3 := slide_left_row_score_nonneg g.r3
  by_cases hg :
      (⟨(slide_left_row g.r0).1, (slide_left_row g.r1).1,
        (slide_left_row g.r2).1, (slide_left_row g.r3).1⟩ : Grid4) = g
  · have e2 : (slide_left g).2 = -1 := by rw [slide_left_eq]; simp [hg]
    have e1 : (slide_left g).1 = g := hg
    rw [e2, e1]
    simp
  · have e2 : (slide_left g).2 =
        0 + (slide_left_row g.r0).2 + (slide_left_row g.r1).2 +
          (slide_left_row g.r2).2 + (slide_left_row g.r3).2 := by
      rw [slide_left_eq]; simp [hg]
    have e1 : (slide_left g).1 ≠ g := hg
    rw [e2]
    refine ⟨⟨fun h => absurd h (by omega), fun h => absurd h e1⟩, fun _ => by omega⟩

lemma slide_right_spec (g : Grid4) :
    ((slide_right g).2 = -1 ↔ (slide_right g).1 = g) ∧
    ((slide_right g).2 ≠ -1 → 0 ≤ (slide_right g).2) := by
  have h := slide_left_spec (reflect_horizontal g)
  refine ⟨?_, h.2⟩
  rw [show (slide_right g).2 = (slide_left (reflect_horizontal g)).2 from rfl,
     show (slide_right g).1 = reflect_horizontal (slide_left (reflect_horizontal g)).1 from rfl,
     h.1]
  exact inv_eq_iff reflect_horizontal reflect_horizontal
    reflect_horizontal_invol reflect_horizontal_invol _ g

lemma slide_up_spec (g : Grid4) :
    ((slide_up g).2 = -1 ↔ (slide_up g).1 = g) ∧
    ((slide_up g).2 ≠ -1 → 0 ≤ (slide_up g).2) := by
  have h := slide_left_spec (reflect_horizontal (rotate_right g))
  refine ⟨?_, h.2⟩
  rw [show (slide_up g).2 = (slide_left (reflect_horizontal (rotate_right g))).2 from rfl,
     show (slide_up g).1 =
       rotate_left (reflect_horizontal (slide_left (reflect_horizontal (rotate_right g))).1)
       from rfl,
     h.1]
  exact inv_eq_iff (fun x => rotate_left (reflect_horizontal x))
    (fun x => reflect_horizontal (rotate_right x))
    (fun x => rfl) (fun x => rfl) _ g

lemma slide_down_spec (g : Grid4) :
    ((slide_down g).2 = -1 ↔ (slide_down g).1 = g) ∧
    ((slide_down g).2 ≠ -1 → 0 ≤ (slide_down g).2) := by
  have h := slide_left_spec (rotate_right g)
  refine ⟨?_, h.2⟩
  rw [show (slide_down g).2 = (slide_left (rotate_right g)).2 from rfl,
     show (slide_down g).1 = rotate_left (slide_left (rotate_right g)).1 from rfl,
     h.1]
  exact inv_eq_iff rotate_left rotate_right rot_lr rot_rl _ g

lemma slide_reward_nonneg (op : Nat) (g : Grid4) :
    (slide op g).2 ≠ -1 → 0 ≤ (slide op g).2 := by
  unfold slide
  split
  · exact (slide_up_spec g).2
  · exact (slide_right_spec g).2
  · exact (slide_down_spec g).2
  · exact (slide_left_spec g).2

/-- C4 counterexample: the row [2,0,0,3] satisfies the merge condition,
yet sliding left yields [4,0,0,0] with reward fib(4) = 5, not the
[a+1,0,0,0] = [3,0,0,0] with reward fib(3) that the claim states. -/
theorem merge_rule_cex :
    (((2 : Int) - (3 : Int)).natAbs = 1 ∨ ((2 : Nat) = 1 ∧ (3 : Nat) = 1)) ∧
    slide_left_row ⟨2, 0, 0, 3⟩ ≠ (⟨2 + 1, 0, 0, 0⟩, fibonacci (2 + 1)) ∧
    slide_left_row ⟨2, 0, 0, 3⟩ = (⟨4, 0, 0, 0⟩, 5) := by decide

/-- C4 amended: for cells a, b of the valid domain with a, b positive,
sliding left the row [a,0,0,b] yields [max(a,b)+1,0,0,0] with reward
fib(max(a,b)+1) when the merge condition holds, and [a,b,0,0] with
reward 0 otherwise. -/
theorem merge_rule (a b : Nat) (ha0 : 0 < a) (ha : a < 24)
    (hb0 : 0 < b) (hb : b < 24) :
    ((((a : Int) - (b : Int)).natAbs = 1 ∨ (a = 1 ∧ b = 1)) →
      slide_left_row ⟨a, 0, 0, b⟩ =
        (⟨max a b + 1, 0, 0, 0⟩, fibonacci (max a b + 1))) ∧
    (¬ (((a : Int) - (b : Int)).natAbs = 1 ∨ (a = 1 ∧ b = 1)) →
      slide_left_row ⟨a, 0, 0, b⟩ = (⟨a, b, 0, 0⟩, 0)) := by
  have ha2 : ¬ a = 0 := by omega
  have hb2 : ¬ b = 0 := by omega
  constructor
  · intro hc
    have hcc : ((b : Int) - (a : Int)).natAbs = 1 ∨ (b = 1 ∧ a = 1) := by
      rcases hc with h | h
      · left; omega
      · right; exact ⟨h.2, h.1⟩
    simp [slide_left_row, slideRowStep, ha2, hb2, hcc, Nat.max_comm]
  · intro hc
    have hcc : ¬ (((b : Int) - (a : Int)).natAbs = 1 ∨ (b = 1 ∧ a = 1)) := by
      rintro (h | h)
      · exact hc (Or.inl (by omega))
      · exact hc (Or.inr ⟨h.2, h.1⟩)
    simp [slide_left_row, slideRowStep, ha2, hb2, hcc]

/-- C4 witness: the amended theorem applied at a = 2, b = 3. -/
theorem merge_rule_witness :
    (0 < 2 ∧ 2 < 24 ∧ 0 < 3 ∧ 3 < 24) ∧
    slide_left_row ⟨2, 0, 0, 3⟩ =
      (⟨max 2 3 + 1, 0, 0, 0⟩, fibonacci (max 2 3 + 1)) :=
  ⟨by decide,
   (merge_rule 2 3 (by decide) (by decide) (by decide) (by decide)).1 (by decide)⟩

/-- C5: a tile merges at most once per slide: [1,1,2,0] slides left to
[2,2,0,0] with reward fib(2) = 2 and not to [3,0,0,0], and [1,1,1,0]
slides left to [2,1,0,0] with reward 2. -/
theorem double_merge_prevention :
    slide_left_row ⟨1, 1, 2, 0⟩ = (⟨2, 2, 0, 0⟩, 2) ∧
    fibonacci 2 = 2 ∧
    (slide_left_row ⟨1, 1, 2, 0⟩).1 ≠ ⟨3, 0, 0, 0⟩ ∧
    slide_left_row ⟨1, 1, 1, 0⟩ = (⟨2, 1, 0, 0⟩, 2) := by decide

/-- C6: for a board over the valid cell domain and a direction 0..3,
slide returns -1 exactly when the grid is unchanged by that slide, and
otherwise a nonnegative reward. -/
theorem slide_illegal_iff_unchanged (g : Grid4) (d : Nat) (hd : d < 4)
    (hcell : ∀ i, i < 16 → cellAt g i < 24) :
    ((slide d g).2 = -1 ↔ (slide d g).1 = g) ∧
    ((slide d g).2 ≠ -1 → 0 ≤ (slide d g).2) := by
  interval_cases d
  · exact slide_up_spec g
  · exact slide_right_spec g
  · exact slide_down_spec g
  · exact slide_left_spec g

/-- C6 witness: the theorem applied to the left slide of a one-tile board. -/
theorem slide_illegal_iff_unchanged_witness :
    ((3 : Nat) < 4 ∧ (∀ i, i < 16 → cellAt zeroGrid i < 24)) ∧
    (((slide 3 zeroGrid).2 = -1 ↔ (slide 3 zeroGrid).1 = zeroGrid) ∧
     ((slide 3 zeroGrid).2 ≠ -1 → 0 ≤ (slide 3 zeroGrid).2)) :=
  ⟨⟨by decide, by decide⟩,
   slide_illegal_iff_unchanged zeroGrid 3 (by decide) (by decide)⟩

/-- C7 counterexample: on the all-zero board monotonic returns 0, which
is outside the claimed range 1..4 (the longest run of a constant board
has length 1). -/
theorem monotonic_range_cex :
    monotonic zeroGrid = 0 ∧
    ¬ (1 ≤ monotonic zeroGrid ∧ monotonic zeroGrid ≤ 4) := by decide

lemma runStep_bounds (x y dir : Int) (st : Nat × Nat) :
    (runStep x y dir st).1 ≤ st.1 + 1 ∧ st.2 ≤ (runStep x y dir st).2 ∧
    (runStep x y dir st).2 ≤ max st.2 (st.1 + 1) := by
  unfold runStep
  split_ifs <;> simp <;> omega

lemma rowPass_le (a b c d : Nat) (dir : Int) (m : Nat) (hm : m ≤ 4) :
    rowPass a b c d dir m ≤ 4 := by
  unfold rowPass
  have h1 := runStep_bounds (a : Int) (b : Int) dir (1, m)
  have h2 := runStep_bounds (b : Int) (c : Int) dir
    (runStep (a : Int) (b : Int) dir (1, m))
  have h3 := runStep_bounds (c : Int) (d : Int) dir
    (runStep (b : Int) (c : Int) dir (runStep (a : Int) (b : Int) dir (1, m)))
  omega

lemma colPass_le (a b c d : Nat) (dir : Int) (m : Nat) (hm : m ≤ 4) :
    colPass a b c d dir m ≤ 4 := by
  unfold colPass
  have h1 := runStep_bounds (a : Int) (b : Int) dir (0, m)
  have h2 := runStep_bounds (b : Int) (c : Int) dir
    (runStep (a : Int) (b : Int) dir (0, m))
  have h3 := runStep_bounds (c : Int) (d : Int) dir
    (runStep (b : Int) (c : Int) dir (runStep (a : Int) (b : Int) dir (0, m)))
  omega

/-- C7 amended: monotonic always returns a value of at most 4 (hence in
0..4); the all-zero board shows the lower end 1 and the exact
longest-run characterisation fail. -/
theorem monotonic_le_four (g : Grid4) : monotonic g ≤ 4 := by
  simp only [monotonic]
  apply colPass_le
  apply colPass_le
  apply colPass_le
  apply colPass_le
  apply colPass_le
  apply colPass_le
  apply colPass_le
  apply colPass_le
  apply rowPass_le
  apply rowPass_le
  apply rowPass_le
  apply rowPass_le
  apply rowPass_le
  apply rowPass_le
  apply rowPass_le
  apply rowPass_le
  omega

/-! Bounds of the feature indexing. -/

lemma clampCell_bounds (v : Nat) (h : v < 2 ^ 31) :
    0 ≤ clampCell v ∧ clampCell v ≤ 23 := by
  have hv : v % 2 ^ 32 = v := Nat.mod_eq_of_lt (by omega)
  simp only [clampCell, u32ToInt, MAX_INDEX, hv]
  rw [if_pos h]
  omega

/-- C3 counterexample: a cell holding 2^31 survives the min clamp as a
negative int, so the 6-cell extract_index of the corrupt board is
negative and outside [0, 24^6). -/
theorem extract_index_bounds_cex :
    extract_index6 badBoard 0 1 4 5 8 9 < 0 ∧
    ¬ (0 ≤ extract_index6 badBoard 0 1 4 5 8 9 ∧
       extract_index6 badBoard 0 1 4 5 8 9 < 24 ^ 6) := by decide

/-- C3 amended: for referenced cells whose stored uint32 value is below
2^31 (so the cast to int is value preserving), extract_index clamps each
cell to 23 and the resulting mixed-radix index lies in [0, 24^len) for
both the 4-cell and the 6-cell features. -/
theorem extract_index_bounds (g : Grid4) (a b c d e f : Nat)
    (ha : a < 16) (hb : b < 16) (hc : c < 16) (hd : d < 16)
    (he : e < 16) (hf : f < 16)
    (hcell : ∀ i, i < 16 → cellAt g i < 2 ^ 31) :
    (0 ≤ extract_index4 g a b c d ∧ extract_index4 g a b c d < 24 ^ 4) ∧
    (0 ≤ extract_index6 g a b c d e f ∧
      extract_index6 g a b c d e f < 24 ^ 6) := by
  obtain ⟨ha1, ha2⟩ := clampCell_bounds _ (hcell a ha)
  obtain ⟨hb1, hb2⟩ := clampCell_bounds _ (hcell b hb)
  obtain ⟨hc1, hc2⟩ := clampCell_bounds _ (hcell c hc)
  obtain ⟨hd1, hd2⟩ := clampCell_bounds _ (hcell d hd)
  obtain ⟨he1, he2⟩ := clampCell_bounds _ (hcell e he)
  obtain ⟨hf1, hf2⟩ := clampCell_bounds _ (hcell f hf)
  have h4 : (24 : Int) ^ 4 = 331776 := by norm_num
  have h6 : (24 : Int) ^ 6 = 191102976 := by norm_num
  unfold extract_index4 extract_index6 MAX_INDEX
  refine ⟨⟨?_, ?_⟩, ?_, ?_⟩ <;> omega

/-- C3 witness: the amended theorem applied to a well-formed board and
the positions of features F0 and F2. -/
theorem extract_index_bounds_witness :
    ((0 : Nat) < 16 ∧ (1 : Nat) < 16 ∧ (4 : Nat) < 16 ∧ (5 : Nat) < 16 ∧
     (8 : Nat) < 16 ∧ (9 : Nat) < 16 ∧
     (∀ i, i < 16 → cellAt s0ex i < 2 ^ 31)) ∧
    ((0 ≤ extract_index4 s0ex 0 1 4 5 ∧ extract_index4 s0ex 0 1 4 5 < 24 ^ 4) ∧
     (0 ≤ extract_index6 s0ex 0 1 4 5 8 9 ∧
       extract_index6 s0ex 0 1 4 5 8 9 < 24 ^ 6)) :=
  ⟨⟨by decide, by decide, by decide, by decide, by decide, by decide, by decide⟩,
   extract_index_bounds s0ex 0 1 4 5 8 9 (by decide) (by decide) (by decide)
     (by decide) (by decide) (by decide) (by decide)⟩

/-! The estimate in orientation normal form. -/

lemma estimate_value_eq (net : Net) (g : Grid4) :
    estimate_value net g =
      orientSum net g + orientSum net (rotate_left (rotate_left g)) +
      orientSum net (rotate_left g) + orientSum net (rotate_right g) := by
  unfold estimate_value
  rw [rot_ll_rr, rot_rrl, zero_add]

/-- C8: the estimated value of a board equals the estimated value of the
board rotated by 180 degrees, for every weight state (floats modelled as
exact rationals). -/
theorem estimate_rot180_invariant (net : Net) (g : Grid4) :
    estimate_value net (rotate_left (rotate_left g)) = estimate_value net g := by
  rw [estimate_value_eq, estimate_value_eq, rot_l4, rot_l3, rot_rll]
  ring

/-! The frame effect of adjust_value, through a fold over the slot list. -/

/-- Add d to every slot of a list in order. -/
def addAll (d : ℚ) : Net → List (Fin 4 × Int) → Net
  | n, [] => n
  | n, s :: l => addAll d (updTable n s.1 s.2 d) l

lemma addAll_append (d : ℚ) (l1 l2 : List (Fin 4 × Int)) :
    ∀ n, addAll d n (l1 ++ l2) = addAll d (addAll d n l1) l2 := by
  induction l1 with
  | nil => intro n; rfl
  | cons s l ih => intro n; simp only [List.cons_append, addAll]; exact ih _

lemma addAll_read (d : ℚ) (l : List (Fin 4 × Int)) :
    ∀ (n : Net) (k : Fin 4) (i : Int),
      addAll d n l k i = n k i + (countSlot l (k, i) : ℚ) * d := by
  induction l with
  | nil => intro n k i; simp [addAll, countSlot]
  | cons s l ih =>
    intro n k i
    rw [addAll, ih, countSlot]
    unfold updTable
    by_cases h : s = (k, i)
    · have h1 : k = s.1 ∧ i = s.2 := by rw [h]; exact ⟨rfl, rfl⟩
      rw [if_pos h1, if_pos h]
      push_cast
      ring
    · have h1 : ¬ (k = s.1 ∧ i = s.2) := by
        rintro ⟨e1, e2⟩
        exact h (Prod.ext e1.symm e2.symm)
      rw [if_neg h1, if_neg h]
      push_cast
      ring

/-- estimate_value reads exactly the touched slots, in order. -/
lemma estimate_value_sum (net : Net) (g : Grid4) :
    estimate_value net g = ((touchedSlots g).map (fun s => net s.1 s.2)).sum := by
  rw [estimate_value_eq]
  simp only [touchedSlots, slotsOf, orientSum, List.map_append, List.sum_append,
    List.map_cons, List.map_nil, List.sum_cons, List.sum_nil]
  ring

/-- The estimate over the all-zero bank is 0 on every board. -/
lemma estimate_zero (g : Grid4) : estimate_value zeroNet g = 0 := by
  simp [estimate_value, orientSum, zeroNet]

lemma adjust_value_net (alpha : ℚ) (net : Net) (g : Grid4) (target : ℚ) :
    (adjust_value alpha net g target).1 =
      addAll (alpha * (target - estimate_value net g)) net (touchedSlots g) := by
  rw [touchedSlots, addAll_append, addAll_append, addAll_append]
  show (adjust_value alpha net g target).1 =
    addAll _ (addAll _ (addAll _ (addAll _ net (slotsOf g))
      (slotsOf (rotate_left (rotate_left g)))) (slotsOf (rotate_left g)))
      (slotsOf (rotate_right g))
  unfold adjust_value
  dsimp only
  rw [rot_ll_rr, rot_rrl]
  rfl

/-- C10: adjust_value updates exactly the slot multiset that
estimate_value reads (four orientations times four tables), adding
alpha times (target minus the pre-call estimate) once per occurrence;
every other weight entry is unchanged, and the working board copy is
restored to the input board. -/
theorem adjust_value_frame (alpha : ℚ) (net : Net) (g : Grid4) (target : ℚ) :
    (∀ (k : Fin 4) (i : Int),
      (adjust_value alpha net g target).1 k i =
        net k i + (countSlot (touchedSlots g) (k, i) : ℚ) *
          (alpha * (target - estimate_value net g))) ∧
    estimate_value net g = ((touchedSlots g).map (fun s => net s.1 s.2)).sum ∧
    (adjust_value alpha net g target).2 = g := by
  refine ⟨fun k i => ?_, ?_, ?_⟩
  · rw [adjust_value_net, addAll_read]
  · exact estimate_value_sum net g
  · show rotate_left (rotate_right (rotate_right (rotate_left (rotate_right
      (rotate_right (rotate_left (rotate_left g))))))) = g
    rw [rot_ll_rr, rot_rrl]
    exact rot_lr g

/-- An adjust_value on the zero bank toward target 0 changes nothing. -/
lemma adjust_zero_noop (alpha : ℚ) (g : Grid4) (target : ℚ) (h : target = 0) :
    (adjust_value alpha zeroNet g target).1 = zeroNet := by
  funext k i
  rw [adjust_value_net, addAll_read, h, estimate_zero]
  show (0 : ℚ) + _ * (alpha * (0 - 0)) = 0
  ring

/-- Pulling a constant factor and the cast out of a mapped sum. -/
lemma map_count_sum (c : ℚ) (L : List (Fin 4 × Int)) (f : Fin 4 × Int → Nat) :
    (L.map fun s => (f s : ℚ) * c).sum = (((L.map f).sum : Nat) : ℚ) * c := by
  induction L with
  | nil => simp
  | cons s l ih =>
    simp only [List.map_cons, List.sum_cons, ih]
    push_cast
    ring

/-- C1: evaluation of close_episode at a two-step trajectory with
distinct rewards 2 and 5, alpha 1, zero initial weights. The code takes
the target of step 0 from the reward of step 0 itself, so the value of
the first after-state becomes 16 times 2 = 32; the target the claim and
spec require, reward of step 1 plus the anchored value of its
after-state, equals 5 and would have produced 16 times 5 = 80. -/
theorem close_episode_target_eval :
    estimate_value (close_episode 1 zeroNet histC1) s0ex = 32 ∧
    ((histC1.getD 1 defaultStep).1 : ℚ) +
      estimate_value
        ((adjust_value 1 zeroNet (histC1.getD 1 defaultStep).2 0).1)
        (histC1.getD 1 defaultStep).2 = 5 ∧
    (32 : ℚ) ≠ 16 * 5 := by
  have hnet0 : (adjust_value 1 zeroNet s1ex 0).1 = zeroNet :=
    adjust_zero_noop 1 s1ex 0 rfl
  have htgt : (((2 : Int) : ℚ)) + estimate_value zeroNet s1ex = 2 := by
    rw [estimate_zero]; norm_num
  have hclose : close_episode 1 zeroNet histC1 = (adjust_value 1 zeroNet s0ex 2).1 := by
    calc close_episode 1 zeroNet histC1
        = td_loop 1 histC1 1 ((adjust_value 1 zeroNet s1ex 0).1) := by
          unfold close_episode
          rw [if_neg (by simp [histC1]), if_neg (by norm_num)]
          rfl
      _ = td_loop 1 histC1 1 zeroNet := by rw [hnet0]
      _ = (adjust_value 1 zeroNet s0ex
            (((2 : Int) : ℚ) + estimate_value zeroNet s1ex)).1 := rfl
      _ = (adjust_value 1 zeroNet s0ex 2).1 := by rw [htgt]
  have hread : ∀ (k : Fin 4) (i : Int),
      (adjust_value 1 zeroNet s0ex 2).1 k i =
        (countSlot (touchedSlots s0ex) (k, i) : ℚ) * 2 := by
    intro k i
    rw [adjust_value_net, addAll_read, estimate_zero]
    show (0 : ℚ) + _ * (1 * (2 - 0)) = _ * 2
    ring
  have hsum :
      ((touchedSlots s0ex).map fun s => countSlot (touchedSlots s0ex) s).sum = 16 := by
    decide
  refine ⟨?_, ?_, by norm_num⟩
  · rw [hclose, estimate_value_sum]
    have hmap : (touchedSlots s0ex).map
        (fun s => (adjust_value 1 zeroNet s0ex 2).1 s.1 s.2) =
        (touchedSlots s0ex).map
          (fun s => (countSlot (touchedSlots s0ex) s : ℚ) * 2) := by
      apply List.map_congr_left
      intro s _
      exact hread s.1 s.2
    rw [hmap, map_count_sum, hsum]
    norm_num
  · show (((5 : Int) : ℚ)) +
      estimate_value ((adjust_value 1 zeroNet s1ex 0).1) s1ex = 5
    rw [hnet0, estimate_zero]
    norm_num

/-- C2 counterexample: with alpha = 1/10, zero tables and the trajectory
[(0, s0), (5, s1)] whose 32 touched slots are pairwise distinct, the
value of s0 after close_episode is 0, not 16. -/
theorem learning_scenario_cex :
    (touchedSlots s0ex ++ touchedSlots s1ex).Nodup ∧
    estimate_value (close_episode (1 / 10) zeroNet histC2) s0ex = 0 ∧
    (0 : ℚ) ≠ 16 := by
  have hnet0 : (adjust_value (1 / 10) zeroNet s1ex 0).1 = zeroNet :=
    adjust_zero_noop (1 / 10) s1ex 0 rfl
  have htgt : (((0 : Int) : ℚ)) + estimate_value zeroNet s1ex = 0 := by
    rw [estimate_zero]; norm_num
  have hclose : close_episode (1 / 10) zeroNet histC2 = zeroNet := by
    calc close_episode (1 / 10) zeroNet histC2
        = td_loop (1 / 10) histC2 1 ((adjust_value (1 / 10) zeroNet s1ex 0).1) := by
          unfold close_episode
          rw [if_neg (by simp [histC2]), if_neg (by norm_num)]
          rfl
      _ = td_loop (1 / 10) histC2 1 zeroNet := by rw [hnet0]
      _ = (adjust_value (1 / 10) zeroNet s0ex
            (((0 : Int) : ℚ) + estimate_value zeroNet s1ex)).1 := rfl
      _ = zeroNet := by rw [htgt]; exact adjust_zero_noop (1 / 10) s0ex 0 rfl
  refine ⟨by decide, ?_, by norm_num⟩
  rw [hclose]
  exact estimate_zero s0ex

/-- C2 amended: in that scenario the value query on s0 returns 0: the
update target of step 0 is the reward of step 0 (which is 0) plus the
anchored value of s1 (also 0), so no weight moves; moreover one
adjust or estimate call touches 16 slots (four orientations times four
tables), not 32. -/
theorem learning_scenario_amended :
    estimate_value (close_episode (1 / 10) zeroNet histC2) s0ex = 0 ∧
    (touchedSlots s0ex).length = 16 := by
  have hnet0 : (adjust_value (1 / 10) zeroNet s1ex 0).1 = zeroNet :=
    adjust_zero_noop (1 / 10) s1ex 0 rfl
  have htgt : (((0 : Int) : ℚ)) + estimate_value zeroNet s1ex = 0 := by
    rw [estimate_zero]; norm_num
  have hclose : close_episode (1 / 10) zeroNet histC2 = zeroNet := by
    calc close_episode (1 / 10) zeroNet histC2
        = td_loop (1 / 10) histC2 1 ((adjust_value (1 / 10) zeroNet s1ex 0).1) := by
          unfold close_episode
          rw [if_neg (by simp [histC2]), if_neg (by norm_num)]
          rfl
      _ = td_loop (1 / 10) histC2 1 zeroNet := by rw [hnet0]
      _ = (adjust_value (1 / 10) zeroNet s0ex
            (((0 : Int) : ℚ) + estimate_value zeroNet s1ex)).1 := rfl
      _ = zeroNet := by rw [htgt]; exact adjust_zero_noop (1 / 10) s0ex 0 rfl
  refine ⟨?_, by decide⟩
  rw [hclose]
  exact estimate_zero s0ex

/-! The take_action loop. -/

lemma orientSum_lower (net : Net) (hnet : ∀ k i, -(2 ^ 100 : ℚ) ≤ net k i)
    (g : Grid4) : -(2 ^ 102 : ℚ) ≤ orientSum net g := by
  unfold orientSum
  have h1 := hnet 0 (extract_index6 g 0 1 4 5 8 9)
  have h2 := hnet 1 (extract_index6 g 1 2 5 6 9 10)
  have h3 := hnet 2 (extract_index4 g 2 6 10 14)
  have h4 := hnet 3 (extract_index4 g 3 7 11 15)
  have hp : (2 ^ 102 : ℚ) = 2 ^ 100 + 2 ^ 100 + 2 ^ 100 + 2 ^ 100 := by norm_num
  linarith

lemma estimate_lower (net : Net) (hnet : ∀ k i, -(2 ^ 100 : ℚ) ≤ net k i)
    (g : Grid4) : -(2 ^ 104 : ℚ) ≤ estimate_value net g := by
  rw [estimate_value_eq]
  have h1 := orientSum_lower net hnet g
  have h2 := orientSum_lower net hnet (rotate_left (rotate_left g))
  have h3 := orientSum_lower net hnet (rotate_left g)
  have h4 := orientSum_lower net hnet (rotate_right g)
  have hp : (2 ^ 104 : ℚ) = 2 ^ 102 + 2 ^ 102 + 2 ^ 102 + 2 ^ 102 := by norm_num
  linarith

lemma taStep_skip (net : Net) (before : Grid4) (st : Int × Int × ℚ × Grid4)
    (op : Nat) (h : (slide op before).2 = -1) : taStep net before st op = st := by
  simp [taStep, h]

lemma taStep_cases (net : Net) (before : Grid4) (st : Int × Int × ℚ × Grid4)
    (op : Nat) :
    taStep net before st op = st ∨
    ((slide op before).2 ≠ -1 ∧ (taStep net before st op).1 = (op : Int)) := by
  unfold taStep
  split_ifs with h1 h2
  · left; rfl
  · right; exact ⟨h1, rfl⟩
  · left; rfl

lemma taStep_keep (net : Net) (before : Grid4) (st : Int × Int × ℚ × Grid4)
    (op : Nat) (h : st.1 ≠ -1) : (taStep net before st op).1 ≠ -1 := by
  rcases taStep_cases net before st op with h2 | h2
  · rw [h2]; exact h
  · rw [h2.2]; omega

lemma taStep_first (net : Net) (before : Grid4) (op : Nat)
    (hnet : ∀ k i, -(2 ^ 100 : ℚ) ≤ net k i)
    (hleg : (slide op before).2 ≠ -1) :
    (taStep net before taInit op).1 = (op : Int) := by
  have hv := estimate_lower net hnet (slide op before).1
  have hr : (0 : Int) ≤ (slide op before).2 := slide_reward_nonneg op before hleg
  have hr2 : (0 : ℚ) ≤ ((slide op before).2 : ℚ) := by exact_mod_cast hr
  have hcond : taInit.2.2.1 + (taInit.2.1 : ℚ) ≤
      estimate_value net (slide op before).1 + ((slide op before).2 : ℚ) := by
    show -FLT_MAX + ((-1 : Int) : ℚ) ≤ _
    rw [FLT_MAX]
    have hn : ((-1 : Int) : ℚ) = -1 := by norm_num
    rw [hn]
    nlinarith [hv, hr2]
  unfold taStep
  rw [if_neg hleg, if_pos hcond]

lemma taStep_state (net : Net) (before : Grid4) (st : Int × Int × ℚ × Grid4)
    (op : Nat) (hQ : st = taInit ∨ st.1 ≠ -1) :
    taStep net before st op = taInit ∨ (taStep net before st op).1 ≠ -1 := by
  rcases hQ with rfl | h
  · rcases taStep_cases net before taInit op with h2 | h2
    · left; exact h2
    · right; rw [h2.2]; omega
  · right; exact taStep_keep net before st op h

lemma taStep_legal_ne (net : Net) (before : Grid4) (st : Int × Int × ℚ × Grid4)
    (op : Nat) (hnet : ∀ k i, -(2 ^ 100 : ℚ) ≤ net k i)
    (hQ : st = taInit ∨ st.1 ≠ -1) (hleg : (slide op before).2 ≠ -1) :
    (taStep net before st op).1 ≠ -1 := by
  rcases hQ with rfl | h
  · rw [taStep_first net before op hnet hleg]; omega
  · exact taStep_keep net before st op h

/-- C9: take_action pushes a (reward, after-state) step onto the
trajectory exactly when some direction 0..3 is legal (weights bounded
below, floats as exact rationals); on the alternating board all four
slides return -1, nothing is appended and the emitted action is null. -/
theorem take_action_appends_iff (net : Net) (g : Grid4)
    (hnet : ∀ k i, -(2 ^ 100 : ℚ) ≤ net k i) :
    (take_action_hist net g ≠ none ↔ ∃ op, op < 4 ∧ (slide op g).2 ≠ -1) ∧
    (∀ op, op < 4 → (slide op altBoard).2 = -1) ∧
    take_action_hist net altBoard = none ∧
    take_action_act net altBoard = none := by
  have halt : ∀ op, op < 4 → (slide op altBoard).2 = -1 := by decide
  have ealt : take_action_state net altBoard = taInit := by
    unfold take_action_state
    rw [taStep_skip net altBoard _ 3 (halt 3 (by omega)),
       taStep_skip net altBoard _ 2 (halt 2 (by omega)),
       taStep_skip net altBoard _ 1 (halt 1 (by omega)),
       taStep_skip net altBoard _ 0 (halt 0 (by omega))]
  refine ⟨?_, halt, ?_, ?_⟩
  · constructor
    · intro h
      by_contra hno
      push_neg at hno
      have e : take_action_state net g = taInit := by
        unfold take_action_state
        rw [taStep_skip net g _ 3 (hno 3 (by omega)),
           taStep_skip net g _ 2 (hno 2 (by omega)),
           taStep_skip net g _ 1 (hno 1 (by omega)),
           taStep_skip net g _ 0 (hno 0 (by omega))]
      apply h
      simp [take_action_hist, e, taInit]
    · rintro ⟨op, hop, hleg⟩
      have hQ0 : taStep net g taInit 0 = taInit ∨ (taStep net g taInit 0).1 ≠ -1 :=
        taStep_state net g taInit 0 (Or.inl rfl)
      have hQ1 := taStep_state net g _ 1 hQ0
      have hQ2 := taStep_state net g _ 2 hQ1
      have hfin : (take_action_state net g).1 ≠ -1 := by
        interval_cases op
        · have h1 : (taStep net g taInit 0).1 ≠ -1 :=
            taStep_legal_ne net g taInit 0 hnet (Or.inl rfl) hleg
          exact taStep_keep net g _ 3 (taStep_keep net g _ 2 (taStep_keep net g _ 1 h1))
        · have h1 := taStep_legal_ne net g _ 1 hnet hQ0 hleg
          exact taStep_keep net g _ 3 (taStep_keep net g _ 2 h1)
        · have h1 := taStep_legal_ne net g _ 2 hnet hQ1 hleg
          exact taStep_keep net g _ 3 h1
        · exact taStep_legal_ne net g _ 3 hnet hQ2 hleg
      simp [take_action_hist, if_neg hfin]
  · simp [take_action_hist, ealt, taInit]
  · simp [take_action_act, ealt, taInit]

/-- C9 witness: the theorem applied to the zero bank and the all-zero
board, on which no slide is legal either. -/
theorem take_action_appends_iff_witness :
    (∀ (k : Fin 4) (i : Int), -(2 ^ 100 : ℚ) ≤ zeroNet k i) ∧
    ((take_action_hist zeroNet zeroGrid ≠ none ↔
        ∃ op, op < 4 ∧ (slide op zeroGrid).2 ≠ -1) ∧
     (∀ op, op < 4 → (slide op altBoard).2 = -1) ∧
     take_action_hist zeroNet altBoard = none ∧
     take_action_act zeroNet altBoard = none) := by
  have hnet : ∀ (k : Fin 4) (i : Int), -(2 ^ 100 : ℚ) ≤ zeroNet k i := by
    intro k i
    show -(2 ^ 100 : ℚ) ≤ 0
    norm_num
  exact ⟨hnet, take_action_appends_iff zeroNet zeroGrid hnet⟩

end TCG2584
